import Mathlib

/-!
Verification of the paginated-prompt engine of ledger-prompts-ui
(src/lib.rs).  The Rust code is shallowly embedded: the bounded text sink
`PromptWrite` becomes a structure over `List Char`, the content producer
becomes either an explicit list of write calls or an abstract function on
sink states, and the button-driven scroller loop becomes a recursive
function over a list of button events.  Machine integers are modelled by
`Nat` (all the arithmetic in the source is on `usize` values far below
overflow). A `none`/`Except.error` value models a Rust `Err`; a distinct
`none` in the byte-level model marks a slicing panic.
-/

namespace LedgerPromptsUI

/-- State of the sink `PromptWrite` from src/lib.rs: the remaining skip
offset, the bounded buffer of capacity `N` (an `ArrayString<N>`), and the
running total of all text ever offered to the sink. -/
structure PromptWrite (N : Nat) where
  offset : Nat
  buffer : List Char
  total : Nat
deriving DecidableEq

/-- `ArrayString::remaining_capacity` of a buffer with capacity `N`. -/
def remaining_capacity (N : Nat) (buffer : List Char) : Nat := N - buffer.length

/-- `PromptWrite::write_str` (src/lib.rs lines 30-47), character-level model.
`total` grows by the full length of `s`; up to `offset` characters are
consumed without being stored; the rest is pushed through
`ArrayString::try_push_str`, whose failure (`Err(core::fmt::Error)`) is
modelled by `none`.  The pushed slice is
`s[offset_in_s .. min(s.len(), offset_in_s + remaining_capacity)]`. -/
def write_str (N : Nat) (st : PromptWrite N) (s : List Char) : Option (PromptWrite N) :=
  let total := st.total + s.length
  let offset_in_s := min st.offset s.length
  let offset := st.offset - offset_in_s
  if 0 < offset then
    some ⟨offset, st.buffer, total⟩
  else
    let slice := (s.drop offset_in_s).take (remaining_capacity N st.buffer)
    if st.buffer.length + slice.length ≤ N then
      some ⟨offset, st.buffer ++ slice, total⟩
    else
      none

/-- A content producer that only writes: the sequence of `write_str` calls
it makes, run in order against the sink. -/
def writeAll (N : Nat) (st : PromptWrite N) : List (List Char) → Option (PromptWrite N)
  | [] => some st
  | s :: ss =>
    match write_str N st s with
    | some st2 => writeAll N st2 ss
    | none => none

/-- One `write_str` step, starting from the state reached after the prefix
`pre` of the logical stream has been offered against an initial skip of
`skip` and a total counter that started at `t`. -/
lemma write_str_spec (N : Nat) (pre s : List Char) (skip t : Nat) :
    write_str N ⟨skip - pre.length, (pre.drop skip).take N, t⟩ s
      = some ⟨skip - (pre.length + s.length), ((pre ++ s).drop skip).take N,
              t + s.length⟩ := by
  by_cases h : s.length < skip - pre.length
  · have hpre : pre.drop skip = [] := by
      apply List.drop_eq_nil_iff.mpr; omega
    have hps : (pre ++ s).drop skip = [] := by
      apply List.drop_eq_nil_iff.mpr
      simp only [List.length_append]; omega
    simp only [write_str, hpre, hps]
    rw [if_pos (by omega : 0 < skip - pre.length - min (skip - pre.length) s.length)]
    simp only [Option.some.injEq, PromptWrite.mk.injEq, and_true, true_and]
    omega
  · have hmin : min (skip - pre.length) s.length = skip - pre.length := by omega
    simp only [write_str, hmin]
    rw [if_neg (by omega : ¬ 0 < skip - pre.length - (skip - pre.length))]
    have hlenbuf : ((pre.drop skip).take N).length = min N (pre.length - skip) := by
      simp [List.length_take, List.length_drop]
    have hlenslice :
        ((s.drop (skip - pre.length)).take
            (remaining_capacity N ((pre.drop skip).take N))).length
          ≤ remaining_capacity N ((pre.drop skip).take N) :=
      List.length_take_le _ _
    rw [if_pos (by
      unfold remaining_capacity at hlenslice ⊢
      omega)]
    simp only [Option.some.injEq, PromptWrite.mk.injEq, and_true, true_and]
    refine ⟨by omega, ?_⟩
    rw [List.drop_append_eq_append_drop, List.take_append_eq_append_take]
    congr 1
    congr 1
    unfold remaining_capacity
    rw [hlenbuf, List.length_drop]
    omega

/-- Running a whole list of writes from the state reached after the prefix
`pre`: the buffer is always the capacity-bounded window of the logical
stream starting at `skip`, the total is the whole stream length, and no
write ever fails. -/
lemma writeAll_general (N : Nat) (ws : List (List Char)) :
    ∀ (pre : List Char) (skip t : Nat),
      writeAll N ⟨skip - pre.length, (pre.drop skip).take N, t⟩ ws
        = some ⟨skip - (pre.length + ws.flatten.length),
                ((pre ++ ws.flatten).drop skip).take N,
                t + ws.flatten.length⟩ := by
  induction ws with
  | nil =>
    intro pre skip t
    simp [writeAll]
  | cons s ss ih =>
    intro pre skip t
    have hstep := write_str_spec N pre s skip t
    have hrest := ih (pre ++ s) skip (t + s.length)
    simp only [List.length_append, List.append_assoc] at hrest
    simp only [writeAll, hstep, hrest, List.flatten_cons, List.length_append,
      List.append_assoc, Option.some.injEq, PromptWrite.mk.injEq, and_true,
      true_and]
    omega

/-- `writeAll_general` specialised to the fresh sink the scroller builds
for each measurement or draw pass. -/
lemma writeAll_run (N skip : Nat) (ws : List (List Char)) :
    writeAll N ⟨skip, [], 0⟩ ws
      = some ⟨skip - ws.flatten.length, (ws.flatten.drop skip).take N,
              ws.flatten.length⟩ := by
  simpa using writeAll_general N ws [] skip 0

/-- Claim C1: for every sequence of writes by a content producer into a
`PromptWrite` sink with initial skip offset `skip` and capacity `N`, the
run succeeds (text beyond the capacity is silently dropped, never an
error), the final buffer is exactly the window of the concatenated
logical stream starting at `skip` of length at most `N`, and the final
`total` is the full length of the logical stream. -/
theorem c1_prompt_write_stream (N skip : Nat) (ws : List (List Char)) :
    writeAll N ⟨skip, [], 0⟩ ws
      = some ⟨skip - ws.flatten.length, (ws.flatten.drop skip).take N,
              ws.flatten.length⟩ :=
  writeAll_run N skip ws

/-- `get_length` (src/lib.rs lines 135-146) for a producer given by its
list of writes: run the producer against a fresh sink with skip 0 and
read the `total` counter. -/
def get_length (N : Nat) (ws : List (List Char)) : Option Nat :=
  (writeAll N ⟨0, [], 0⟩ ws).map (·.total)

/-- Page count of the single-row scroller (src/lib.rs line 154):
`(max(1, len) - 1) / CHAR_N + 1`. -/
def page_count_single (N len : Nat) : Nat := (max 1 len - 1) / N + 1

/-- Page count of the three-row scroller (src/lib.rs lines 243-244):
`(max(1, len) - 1) / (CHAR_N * 3) + 1`. -/
def page_count_three (N len : Nat) : Nat := (max 1 len - 1) / (N * 3) + 1

/-- The buffer rendered for one row: the draw closures re-run the producer
against a fresh sink whose skip offset is the row's starting index
(src/lib.rs lines 168-174, 267-273, 285-291, 303-309).  The run never
fails for a write-only producer (see `writeAll_general`), so the
default `[]` branch is dead. -/
def draw_row (N : Nat) (ws : List (List Char)) (offset : Nat) : List Char :=
  ((writeAll N ⟨offset, [], 0⟩ ws).map (·.buffer)).getD []

/-- Content shown by one page of the single-row layout
(src/lib.rs line 168: `offset = page * CHAR_N`). -/
def draw_page_single (N : Nat) (ws : List (List Char)) (page : Nat) : List Char :=
  draw_row N ws (page * N)

/-- `content_len` of the three-row scroller (src/lib.rs line 243):
`max(1, get_length()?)`. -/
def content_len (N : Nat) (ws : List (List Char)) : Nat :=
  max 1 ((get_length N ws).getD 0)

/-- Content shown by one page of the three-row layout, rows concatenated
in order: row 0 is always drawn, rows 1 and 2 only when `content_len`
exceeds their starting offset (src/lib.rs lines 266-319). -/
def draw_page_three (N : Nat) (ws : List (List Char)) (page : Nat) : List Char :=
  draw_row N ws (3 * page * N)
    ++ (if (3 * page + 1) * N < content_len N ws then
          draw_row N ws ((3 * page + 1) * N)
        else [])
    ++ (if (3 * page + 2) * N < content_len N ws then
          draw_row N ws ((3 * page + 2) * N)
        else [])

lemma draw_row_eq (N : Nat) (ws : List (List Char)) (offset : Nat) :
    draw_row N ws offset = (ws.flatten.drop offset).take N := by
  rw [draw_row, writeAll_run N offset ws]
  simp

lemma get_length_eq (N : Nat) (ws : List (List Char)) :
    get_length N ws = some ws.flatten.length := by
  rw [get_length, writeAll_run N 0 ws]
  simp

/-- Ceiling-division bound: `a < (a / q + 1) * q` for positive `q`. -/
lemma lt_div_succ_mul (a q : Nat) (hq : 0 < q) : a < (a / q + 1) * q := by
  have h1 := Nat.div_add_mod a q
  have h2 := Nat.mod_lt a hq
  calc a = q * (a / q) + a % q := h1.symm
    _ < q * (a / q) + q := Nat.add_lt_add_left h2 _
    _ = (a / q + 1) * q := by rw [Nat.add_mul, Nat.one_mul, Nat.mul_comm]

/-- The page count always covers the whole content:
`len ≤ ((max 1 len - 1) / q + 1) * q`. -/
lemma le_page_count_mul (len q : Nat) (hq : 0 < q) :
    len ≤ ((max 1 len - 1) / q + 1) * q := by
  have h := lt_div_succ_mul (max 1 len - 1) q hq
  have h2 : max 1 len ≤ ((max 1 len - 1) / q + 1) * q := Nat.le_of_pred_lt h
  exact le_trans (Nat.le_max_right 1 len) h2

/-- Concatenating the `R`-sized chunks of `l` read off at offsets
`0, R, 2R, …`: the first `n` chunks give the first `n * R` elements. -/
lemma flatten_chunks (l : List Char) (R : Nat) :
    ∀ n : Nat,
      ((List.range n).map (fun p => (l.drop (p * R)).take R)).flatten
        = l.take (n * R) := by
  intro n
  induction n with
  | zero => simp
  | succ m ih =>
    rw [List.range_succ, List.map_append, List.flatten_append, ih]
    simp only [List.map_cons, List.map_nil, List.flatten_cons,
      List.flatten_nil, List.append_nil]
    rw [Nat.succ_mul, List.take_add]

/-- A conditionally drawn row of the three-row layout equals the
unconditional slice: when the guard fails the slice is empty anyway. -/
lemma cond_row_eq (N : Nat) (ws : List (List Char)) (o : Nat) :
    (if o < content_len N ws then draw_row N ws o else [])
      = (ws.flatten.drop o).take N := by
  by_cases hc : o < content_len N ws
  · rw [if_pos hc, draw_row_eq]
  · rw [if_neg hc]
    rw [content_len, get_length_eq] at hc
    simp only [Option.getD_some] at hc
    have hdrop : ws.flatten.drop o = [] := by
      apply List.drop_eq_nil_iff.mpr
      omega
    rw [hdrop, List.take_nil]

/-- One page of the three-row layout shows the `N * 3`-sized window of the
content starting at `page * (N * 3)`. -/
lemma draw_page_three_eq (N : Nat) (ws : List (List Char)) (p : Nat) :
    draw_page_three N ws p
      = (ws.flatten.drop (p * (N * 3))).take (N * 3) := by
  rw [draw_page_three, draw_row_eq, cond_row_eq, cond_row_eq]
  have e1 : (3 * p + 1) * N = 3 * p * N + N := by ring
  have e2 : (3 * p + 2) * N = 3 * p * N + N + N := by ring
  have e3 : p * (N * 3) = 3 * p * N := by ring
  have e4 : N * 3 = N + (N + N) := by ring
  rw [e1, e2, e3, e4, List.take_add, List.take_add, List.drop_drop,
    List.drop_drop, List.append_assoc]

/-- Claim C2: concatenating, in page order and row order within a page,
the buffers rendered for every page reproduces exactly the first
`page_count * R * K` characters of the logical content (`K = 1` for the
single-row layout, `K = 3` for the three-row layout) — which, truncated
to the content length, is the whole logical content; and a conditional
row of a three-row page is drawn exactly when the content length exceeds
that row's starting offset. -/
theorem c2_page_concat (N : Nat) (hN : 0 < N) (ws : List (List Char)) :
    (((List.range (page_count_single N ws.flatten.length)).map
          (draw_page_single N ws)).flatten
        = ws.flatten.take (page_count_single N ws.flatten.length * N)
      ∧ ((List.range (page_count_single N ws.flatten.length)).map
          (draw_page_single N ws)).flatten = ws.flatten)
    ∧ (((List.range (page_count_three N ws.flatten.length)).map
          (draw_page_three N ws)).flatten
        = ws.flatten.take (page_count_three N ws.flatten.length * (N * 3))
      ∧ ((List.range (page_count_three N ws.flatten.length)).map
          (draw_page_three N ws)).flatten = ws.flatten)
    ∧ (∀ page r : Nat, 1 ≤ r → r ≤ 2 →
        ((3 * page + r) * N < content_len N ws ↔
          (3 * page + r) * N < ws.flatten.length)) := by
  have hsingle :
      ((List.range (page_count_single N ws.flatten.length)).map
          (draw_page_single N ws)).flatten
        = ws.flatten.take (page_count_single N ws.flatten.length * N) := by
    have hrows : ∀ p : Nat,
        draw_page_single N ws p = (ws.flatten.drop (p * N)).take N := by
      intro p
      rw [draw_page_single, draw_row_eq]
    calc ((List.range (page_count_single N ws.flatten.length)).map
          (draw_page_single N ws)).flatten
        = ((List.range (page_count_single N ws.flatten.length)).map
            (fun p => (ws.flatten.drop (p * N)).take N)).flatten := by
          rw [List.map_congr_left (fun p _ => hrows p)]
      _ = ws.flatten.take (page_count_single N ws.flatten.length * N) :=
          flatten_chunks ws.flatten N _
  have hthree :
      ((List.range (page_count_three N ws.flatten.length)).map
          (draw_page_three N ws)).flatten
        = ws.flatten.take (page_count_three N ws.flatten.length * (N * 3)) := by
    calc ((List.range (page_count_three N ws.flatten.length)).map
          (draw_page_three N ws)).flatten
        = ((List.range (page_count_three N ws.flatten.length)).map
            (fun p => (ws.flatten.drop (p * (N * 3))).take (N * 3))).flatten := by
          rw [List.map_congr_left (fun p _ => draw_page_three_eq N ws p)]
      _ = ws.flatten.take (page_count_three N ws.flatten.length * (N * 3)) :=
          flatten_chunks ws.flatten (N * 3) _
  refine ⟨⟨hsingle, ?_⟩, ⟨hthree, ?_⟩, ?_⟩
  · rw [hsingle]
    exact List.take_of_length_le
      (le_page_count_mul ws.flatten.length N hN)
  · rw [hthree]
    exact List.take_of_length_le
      (le_page_count_mul ws.flatten.length (N * 3) (by omega))
  · intro page r hr1 hr2
    rw [content_len, get_length_eq]
    simp only [Option.getD_some]
    have hoff : 1 ≤ (3 * page + r) * N := by
      have := Nat.mul_le_mul (show 1 ≤ 3 * page + r by omega) hN
      omega
    omega

/-- Witness for C2 at `N = 2` over a concrete producer with two writes and
five characters of content. -/
theorem c2_page_concat_witness :
    ((List.range (page_count_single 2
        ([['a', 'b', 'c'], ['d', 'e']].flatten.length))).map
      (draw_page_single 2 [['a', 'b', 'c'], ['d', 'e']])).flatten
      = [['a', 'b', 'c'], ['d', 'e']].flatten
    ∧ ((List.range (page_count_three 2
        ([['a', 'b', 'c'], ['d', 'e']].flatten.length))).map
      (draw_page_three 2 [['a', 'b', 'c'], ['d', 'e']])).flatten
      = [['a', 'b', 'c'], ['d', 'e']].flatten := by
  have h := c2_page_concat 2 (by decide) [['a', 'b', 'c'], ['d', 'e']]
  exact ⟨h.1.2, h.2.1.2⟩

/-- Modelled from the spec: `ceil(a / q)` as `(a + q - 1) / q`, to be
compared with the page-count expressions of the source. -/
def ceil_div_spec (a q : Nat) : Nat := (a + q - 1) / q

lemma page_count_eq_ceil (len q : Nat) (hq : 0 < q) :
    (max 1 len - 1) / q + 1 = ceil_div_spec (max 1 len) q := by
  rw [ceil_div_spec]
  have h1 : max 1 len + q - 1 = (max 1 len - 1) + q := by omega
  rw [h1, Nat.add_div_right _ hq]

lemma page_count_exact_div (q m : Nat) (hq : 0 < q) (hm : 0 < m) :
    (max 1 (m * q) - 1) / q + 1 = m := by
  have hmq : 1 ≤ m * q := Nat.mul_le_mul hm hq
  have hmax : max 1 (m * q) = m * q := by omega
  rw [hmax]
  have hdiv : (m * q - 1) / q = m - 1 := by
    apply Nat.div_eq_of_lt_le
    · rw [Nat.sub_one_mul]
      have hqmq : q ≤ m * q := Nat.le_mul_of_pos_left q hm
      omega
    · have : (m - 1 + 1) * q = m * q := by
        congr 1
        omega
      rw [this]
      omega
  omega

/-- Claim C3: for positive row capacity `R`, the single-row page count
equals `ceil(max(1, L) / R)` and the three-row page count equals
`ceil(max(1, L) / (R * 3))`; `L = 0` gives one page, an exact multiple of
the page size gives no trailing empty page, and one character past a
single page gives exactly two pages. -/
theorem c3_page_count (R : Nat) (hR : 0 < R) :
    (∀ L : Nat,
        page_count_single R L = ceil_div_spec (max 1 L) R
        ∧ page_count_three R L = ceil_div_spec (max 1 L) (R * 3))
    ∧ page_count_single R 0 = 1
    ∧ page_count_three R 0 = 1
    ∧ (∀ m : Nat, 0 < m →
        page_count_single R (m * R) = m
        ∧ page_count_three R (m * (R * 3)) = m)
    ∧ page_count_single R (R + 1) = 2
    ∧ page_count_three R (R * 3 + 1) = 2 := by
  have hR3 : 0 < R * 3 := by omega
  refine ⟨fun L => ⟨page_count_eq_ceil L R hR, page_count_eq_ceil L (R * 3) hR3⟩,
    ?_, ?_, fun m hm => ⟨page_count_exact_div R m hR hm,
      page_count_exact_div (R * 3) m hR3 hm⟩, ?_, ?_⟩
  · rw [page_count_single]
    simp
  · rw [page_count_three]
    simp
  · rw [page_count_single]
    have hmax : max 1 (R + 1) = R + 1 := by omega
    rw [hmax]
    have : (R + 1 - 1) / R = 1 := by
      have : R + 1 - 1 = R := by omega
      rw [this, Nat.div_self hR]
    omega
  · rw [page_count_three]
    have hmax : max 1 (R * 3 + 1) = R * 3 + 1 := by omega
    rw [hmax]
    have : (R * 3 + 1 - 1) / (R * 3) = 1 := by
      have h2 : R * 3 + 1 - 1 = R * 3 := by omega
      rw [h2, Nat.div_self hR3]
    omega

/-- Witness for C3 at the source's row capacity `R = 16`. -/
theorem c3_page_count_witness :
    page_count_single 16 100 = ceil_div_spec 100 16
    ∧ page_count_single 16 0 = 1
    ∧ page_count_three 16 0 = 1
    ∧ page_count_single 16 32 = 2
    ∧ page_count_single 16 17 = 2
    ∧ page_count_three 16 49 = 2 := by
  have h := c3_page_count 16 (by decide)
  refine ⟨?_, h.2.1, h.2.2.1, ?_, h.2.2.2.2.1, h.2.2.2.2.2⟩
  · have h1 := (h.1 100).1
    simpa using h1
  · have h2 := (h.2.2.2.1 2 (by decide)).1
    simpa using h2

/-- Button events seen by the scroller loop (nanos_sdk `ButtonEvent`);
`other` stands for any other event or `None` from `get_event`. -/
inductive Event where
  | leftPress
  | rightPress
  | leftRelease
  | rightRelease
  | bothRelease
  | other
deriving DecidableEq

/-- Result of `ask_err` / `ask_three_rows_err`: `ok b` is `Ok(b)`,
`err` is `Err(ScrollerError)`, `panicked` is the page-count abort, and
`pending` means the supplied event list ran out while the loop was still
waiting for input. -/
inductive AskResult where
  | ok (b : Bool)
  | err
  | panicked
  | pending
deriving DecidableEq

/-- The event loop shared by `ask_err` (src/lib.rs lines 206-234) and
`ask_three_rows_err` (lines 333-361), parameterised by the draw routine
(which may fail with a producer error).  Press events and unknown events
only show transient indicators and change no state. -/
def ask_loop (draw : Nat → Except Unit Unit) (page_count : Nat) :
    Nat → List Event → AskResult
  | _, [] => .pending
  | page, e :: es =>
    match e with
    | .leftPress => ask_loop draw page_count page es
    | .rightPress => ask_loop draw page_count page es
    | .other => ask_loop draw page_count page es
    | .leftRelease =>
      let page2 := if 0 < page then page - 1 else page
      match draw page2 with
      | .error _ => .err
      | .ok _ => ask_loop draw page_count page2 es
    | .rightRelease =>
      let page2 := if page < page_count then page + 1 else page
      if page2 = page_count then .ok true
      else
        match draw page2 with
        | .error _ => .err
        | .ok _ => ask_loop draw page_count page2 es
    | .bothRelease => .ok false

/-- Right-releases advance one page each and accept on the last one,
consulting the draw routine only for non-terminal pages. -/
lemma ask_loop_rr_accept (draw : Nat → Except Unit Unit) (pc : Nat)
    (hdraw : ∀ i, draw i = .ok ()) :
    ∀ (k page : Nat), page + k = pc → 1 ≤ k →
      ask_loop draw pc page (List.replicate k .rightRelease) = .ok true := by
  intro k
  induction k with
  | zero => omega
  | succ m ih =>
    intro page hsum _
    have hlt : page < pc := by omega
    rw [List.replicate_succ]
    simp only [ask_loop, if_pos hlt]
    by_cases hm : m = 0
    · subst hm
      rw [if_pos (by omega : page + 1 = pc)]
    · rw [if_neg (by omega : ¬ page + 1 = pc), hdraw (page + 1)]
      exact ih (page + 1) (by omega) (by omega)

/-- Fewer right-releases than the remaining pages leave the loop waiting. -/
lemma ask_loop_rr_pending (draw : Nat → Except Unit Unit) (pc : Nat)
    (hdraw : ∀ i, draw i = .ok ()) :
    ∀ (k page : Nat), page + k < pc →
      ask_loop draw pc page (List.replicate k .rightRelease) = .pending := by
  intro k
  induction k with
  | zero =>
    intro page _
    rw [List.replicate_zero]
    rfl
  | succ m ih =>
    intro page hsum
    have hlt : page < pc := by omega
    rw [List.replicate_succ]
    simp only [ask_loop, if_pos hlt]
    rw [if_neg (by omega : ¬ page + 1 = pc), hdraw (page + 1)]
    exact ih (page + 1) (by omega)

/-- Claim C4: from page 0, exactly `page_count` right-button releases
terminate the loop with the Accepted outcome (`Ok(true)`), no proper
prefix of them terminates it, and the final release — the one that lets
the page index reach the sentinel value `page_count` — accepts without
invoking the draw routine again (it holds for an arbitrary, even always
failing, draw routine). -/
theorem c4_right_releases_accept (pc : Nat) (draw : Nat → Except Unit Unit)
    (hpc : 1 ≤ pc) (hdraw : ∀ i, draw i = .ok ()) :
    ask_loop draw pc 0 (List.replicate pc .rightRelease) = .ok true
    ∧ (∀ k, k < pc →
        ask_loop draw pc 0 (List.replicate k .rightRelease) = .pending)
    ∧ (∀ draw2 : Nat → Except Unit Unit,
        ask_loop draw2 pc (pc - 1) [.rightRelease] = .ok true) := by
  refine ⟨ask_loop_rr_accept draw pc hdraw pc 0 (by omega) hpc,
    fun k hk => ask_loop_rr_pending draw pc hdraw k 0 (by omega),
    fun draw2 => ?_⟩
  simp only [ask_loop, if_pos (by omega : pc - 1 < pc)]
  rw [if_pos (by omega : pc - 1 + 1 = pc)]

/-- Witness for C4 with `page_count = 2` and an always-succeeding draw. -/
theorem c4_right_releases_accept_witness :
    ask_loop (fun _ => Except.ok ()) 2 0 (List.replicate 2 .rightRelease)
      = .ok true
    ∧ ask_loop (fun _ => Except.ok ()) 2 0 (List.replicate 1 .rightRelease)
      = .pending := by
  have h := c4_right_releases_accept 2 (fun _ => Except.ok ())
    (by decide) (fun i => rfl)
  exact ⟨h.1, h.2.1 1 (by decide)⟩

/-- Claim C5: from any reachable loop state — any current page, either
layout's draw routine — a both-buttons release immediately returns the
Rejected outcome (`Ok(false)`), without consulting the draw routine or
moving the page; and a left-button release at page 0 redraws page 0 and
continues exactly as the loop would on the remaining events, the page
index staying 0. -/
theorem c5_both_release_rejects (pc page : Nat)
    (draw : Nat → Except Unit Unit) (es : List Event) :
    ask_loop draw pc page (.bothRelease :: es) = .ok false
    ∧ ((∀ i, draw i = .ok ()) →
        ask_loop draw pc 0 (.leftRelease :: es) = ask_loop draw pc 0 es) := by
  constructor
  · rfl
  · intro hdraw
    simp only [ask_loop]
    rw [if_neg (by omega : ¬ 0 < 0), hdraw 0]

/-- Witness for C5 at `page_count = 3`, page 1, with a concrete tail. -/
theorem c5_both_release_rejects_witness :
    ask_loop (fun _ => Except.ok ()) 3 1 [.bothRelease, .other] = .ok false
    ∧ ask_loop (fun _ => Except.ok ()) 3 0 [.leftRelease]
      = ask_loop (fun _ => Except.ok ()) 3 0 [] := by
  have h := c5_both_release_rejects 3 1 (fun _ => Except.ok ()) [.other]
  have h2 := c5_both_release_rejects 3 1 (fun _ => Except.ok ()) []
  exact ⟨h.1, h2.2 (fun i => rfl)⟩

/-- An arbitrary content producer, as the scroller sees it: a function
that takes the fresh sink state and either fails (`ScrollerError`) or
returns the mutated sink.  (The `Fn` bound in the source makes it pure
and repeatable.) -/
def ProducerM (N : Nat) : Type := PromptWrite N → Except Unit (PromptWrite N)

/-- `get_length` (src/lib.rs lines 135-146) for an abstract producer. -/
def get_length_p (N : Nat) (p : ProducerM N) : Except Unit Nat :=
  (p ⟨0, [], 0⟩).map (·.total)

/-- Success/failure of the single-row draw closure at a page: it re-runs
the producer with skip `page * CHAR_N` (src/lib.rs lines 166-202). -/
def draw_single (N : Nat) (p : ProducerM N) (page : Nat) : Except Unit Unit :=
  (p ⟨page * N, [], 0⟩).map (fun _ => ())

/-- Success/failure of the three-row draw closure at a page: row 0 always,
rows 1 and 2 guarded by `content_len` (src/lib.rs lines 256-329). -/
def draw_three (N : Nat) (p : ProducerM N) (cl page : Nat) : Except Unit Unit :=
  (p ⟨3 * page * N, [], 0⟩).bind (fun _ =>
    (if (3 * page + 1) * N < cl then
        (p ⟨(3 * page + 1) * N, [], 0⟩).map (fun _ => ())
      else Except.ok ()).bind (fun _ =>
        if (3 * page + 2) * N < cl then
          (p ⟨(3 * page + 2) * N, [], 0⟩).map (fun _ => ())
        else Except.ok ()))

/-- `WriteScroller::ask_err` (src/lib.rs lines 152-235): measure, compute
the page count, return `Ok(true)` on a zero page count, abort past 1000
pages, draw page 0, then run the event loop. -/
def ask_err (N : Nat) (p : ProducerM N) (events : List Event) : AskResult :=
  match get_length_p N p with
  | .error _ => .err
  | .ok len =>
    let pc := page_count_single N len
    if pc = 0 then .ok true
    else if 1000 < pc then .panicked
    else
      match draw_single N p 0 with
      | .error _ => .err
      | .ok _ => ask_loop (draw_single N p) pc 0 events

/-- `WriteScroller::ask_three_rows_err` (src/lib.rs lines 241-362). -/
def ask_three_rows_err (N : Nat) (p : ProducerM N) (events : List Event) :
    AskResult :=
  match get_length_p N p with
  | .error _ => .err
  | .ok len =>
    let cl := max 1 len
    let pc := page_count_three N len
    if pc = 0 then .ok true
    else if 1000 < pc then .panicked
    else
      match draw_three N p cl 0 with
      | .error _ => .err
      | .ok _ => ask_loop (draw_three N p cl) pc 0 events

/-- `WriteScroller::ask` (src/lib.rs lines 148-150):
`ask_err(...).unwrap_or(false)` — an internal error collapses to
`false`; a panic or a still-pending loop passes through. -/
def ask (N : Nat) (p : ProducerM N) (events : List Event) : AskResult :=
  match ask_err N p events with
  | .err => .ok false
  | r => r

/-- `WriteScroller::ask_three_rows` (src/lib.rs lines 237-239). -/
def ask_three_rows (N : Nat) (p : ProducerM N) (events : List Event) :
    AskResult :=
  match ask_three_rows_err N p events with
  | .err => .ok false
  | r => r

/-- Outcome of the public entry points `write_scroller` and
`write_scroller_three_rows`: `accepted` is `Some(())`, `rejected` is
`None`, `panicked` is the process abort, `pending` again means the event
list ran out. -/
inductive ScrollResult where
  | accepted
  | rejected
  | panicked
  | pending
deriving DecidableEq

/-- `write_scroller` (src/lib.rs lines 79-90): `CHAR_N = 16`;
`ask(..) == false` becomes `None`. -/
def write_scroller (p : ProducerM 16) (events : List Event) : ScrollResult :=
  match ask 16 p events with
  | .ok true => .accepted
  | .ok false => .rejected
  | .err => .rejected
  | .panicked => .panicked
  | .pending => .pending

/-- `write_scroller_three_rows` (src/lib.rs lines 93-106). -/
def write_scroller_three_rows (p : ProducerM 16) (events : List Event) :
    ScrollResult :=
  match ask_three_rows 16 p events with
  | .ok true => .accepted
  | .ok false => .rejected
  | .err => .rejected
  | .panicked => .panicked
  | .pending => .pending

/-- Claim C6: whenever a producer error surfaces anywhere inside
`ask_err` / `ask_three_rows_err` (during the measurement pass or during
any page draw — those are the only sources of `.err`), the public
entry points report the user-rejection outcome: `ask`/`ask_three_rows`
return `false` and `write_scroller`/`write_scroller_three_rows` return
`None`; no distinct error value reaches the caller. -/
theorem c6_error_collapses_to_rejected (p q : ProducerM 16)
    (es es2 : List Event)
    (hp : ask_err 16 p es = .err)
    (hq : ask_three_rows_err 16 q es2 = .err) :
    ask 16 p es = .ok false
    ∧ write_scroller p es = .rejected
    ∧ ask_three_rows 16 q es2 = .ok false
    ∧ write_scroller_three_rows q es2 = .rejected := by
  have h1 : ask 16 p es = .ok false := by
    rw [ask, hp]
  have h2 : ask_three_rows 16 q es2 = .ok false := by
    rw [ask_three_rows, hq]
  refine ⟨h1, ?_, h2, ?_⟩
  · rw [write_scroller, h1]
  · rw [write_scroller_three_rows, h2]

/-- A producer that fails immediately, as in a formatting error on the
first write. -/
def failing_producer : ProducerM 16 := fun _ => .error ()

/-- Witness for C6: the always-failing producer yields `Rejected` from
every public entry point. -/
theorem c6_error_collapses_to_rejected_witness :
    ask 16 failing_producer [] = .ok false
    ∧ write_scroller failing_producer [] = .rejected
    ∧ ask_three_rows 16 failing_producer [] = .ok false
    ∧ write_scroller_three_rows failing_producer [] = .rejected :=
  c6_error_collapses_to_rejected failing_producer failing_producer [] []
    rfl rfl

/-- The event loop itself never reaches the abort path: the page-count
check happens once, before the loop. -/
lemma ask_loop_ne_panicked (draw : Nat → Except Unit Unit) (pc : Nat) :
    ∀ (es : List Event) (page : Nat),
      ask_loop draw pc page es ≠ .panicked := by
  intro es
  induction es with
  | nil =>
    intro page
    simp [ask_loop]
  | cons e es ih =>
    intro page
    match e with
    | .leftPress => exact ih page
    | .rightPress => exact ih page
    | .other => exact ih page
    | .leftRelease =>
      simp only [ask_loop]
      match draw (if 0 < page then page - 1 else page) with
      | .error _ => simp
      | .ok _ => exact ih _
    | .rightRelease =>
      simp only [ask_loop]
      by_cases hterm : (if page < pc then page + 1 else page) = pc
      · rw [if_pos hterm]
        simp
      · rw [if_neg hterm]
        match draw (if page < pc then page + 1 else page) with
        | .error _ => simp
        | .ok _ => exact ih _
    | .bothRelease =>
      simp [ask_loop]

/-- Claim C7: a measured length whose page count exceeds 1000 makes both
scroller layouts abort (`panicked`) instead of returning any
Accepted/Rejected outcome, and with a page count of at most 1000 the
abort path is never taken. -/
theorem c7_page_limit_abort :
    (∀ (p : ProducerM 16) (es : List Event) (len : Nat),
        get_length_p 16 p = .ok len → 1000 < page_count_single 16 len →
        ask_err 16 p es = .panicked ∧ write_scroller p es = .panicked)
    ∧ (∀ (q : ProducerM 16) (es : List Event) (len : Nat),
        get_length_p 16 q = .ok len → 1000 < page_count_three 16 len →
        ask_three_rows_err 16 q es = .panicked
        ∧ write_scroller_three_rows q es = .panicked)
    ∧ (∀ (p : ProducerM 16) (es : List Event) (len : Nat),
        get_length_p 16 p = .ok len → page_count_single 16 len ≤ 1000 →
        ask_err 16 p es ≠ .panicked)
    ∧ (∀ (q : ProducerM 16) (es : List Event) (len : Nat),
        get_length_p 16 q = .ok len → page_count_three 16 len ≤ 1000 →
        ask_three_rows_err 16 q es ≠ .panicked) := by
  refine ⟨?_, ?_, ?_, ?_⟩
  · intro p es len hlen hpc
    have habort : ask_err 16 p es = .panicked := by
      rw [ask_err, hlen]
      simp only
      rw [if_neg (by omega : ¬ page_count_single 16 len = 0), if_pos hpc]
    refine ⟨habort, ?_⟩
    rw [write_scroller, ask, habort]
  · intro q es len hlen hpc
    have habort : ask_three_rows_err 16 q es = .panicked := by
      rw [ask_three_rows_err, hlen]
      simp only
      rw [if_neg (by omega : ¬ page_count_three 16 len = 0), if_pos hpc]
    refine ⟨habort, ?_⟩
    rw [write_scroller_three_rows, ask_three_rows, habort]
  · intro p es len hlen hpc
    rw [ask_err, hlen]
    simp only
    by_cases h0 : page_count_single 16 len = 0
    · rw [if_pos h0]
      simp
    · rw [if_neg h0, if_neg (by omega : ¬ 1000 < page_count_single 16 len)]
      match draw_single 16 p 0 with
      | .error _ => simp
      | .ok _ => exact ask_loop_ne_panicked _ _ es 0
  · intro q es len hlen hpc
    rw [ask_three_rows_err, hlen]
    simp only
    by_cases h0 : page_count_three 16 len = 0
    · rw [if_pos h0]
      simp
    · rw [if_neg h0, if_neg (by omega : ¬ 1000 < page_count_three 16 len)]
      match draw_three 16 q (max 1 len) 0 with
      | .error _ => simp
      | .ok _ => exact ask_loop_ne_panicked _ _ es 0

/-- A producer reporting a 16001-character logical length: 1001 pages in
the single-row layout at `CHAR_N = 16`. -/
def big_producer : ProducerM 16 :=
  fun st => .ok ⟨st.offset, st.buffer, st.total + 16001⟩

/-- A producer reporting a 48001-character logical length: 1001 pages in
the three-row layout at `CHAR_N = 16`. -/
def big_producer_three : ProducerM 16 :=
  fun st => .ok ⟨st.offset, st.buffer, st.total + 48001⟩

/-- A producer reporting a 5-character logical length. -/
def small_producer : ProducerM 16 :=
  fun st => .ok ⟨st.offset, st.buffer, st.total + 5⟩

/-- Witness for C7: page count 1001 aborts in both layouts; page count 1
does not. -/
theorem c7_page_limit_abort_witness :
    (ask_err 16 big_producer [] = .panicked
      ∧ write_scroller big_producer [] = .panicked)
    ∧ (ask_three_rows_err 16 big_producer_three [] = .panicked
      ∧ write_scroller_three_rows big_producer_three [] = .panicked)
    ∧ ask_err 16 small_producer [] ≠ .panicked := by
  refine ⟨c7_page_limit_abort.1 big_producer [] 16001 rfl (by decide),
    c7_page_limit_abort.2.1 big_producer_three [] 48001 rfl (by decide),
    c7_page_limit_abort.2.2.1 small_producer [] 5 rfl (by decide)⟩

/-- Appending one formatted write to a buffer that already holds `title`
(what `write!` through `mk_prompt_write` does in `make_title_buffer`):
the suffix is silently truncated to the remaining capacity. -/
lemma write_suffix (title sfx : List Char) (h : title.length ≤ 16) :
    writeAll 16 ⟨0, title, 0⟩ [sfx]
      = some ⟨0, title ++ sfx.take (16 - title.length), sfx.length⟩ := by
  have hg := writeAll_general 16 [sfx] title 0 0
  simp only [List.flatten_cons, List.flatten_nil, List.append_nil,
    List.drop_zero, Nat.zero_sub, Nat.zero_add] at hg
  rw [List.take_of_length_le h] at hg
  rw [hg, List.take_append_eq_append_take, List.take_of_length_le h]

/-- `len_needed` (src/lib.rs lines 367-373): characters reserved for the
`" (x/y)"` suffix, sized by the magnitude of `page_count`. -/
def len_needed (pc : Nat) : Nat :=
  4 + (if pc < 10 then 2 else if pc < 100 then 4 else 6)

/-- The decimal text `" (page+1/page_count)"` produced by
`write!(.., " ({}/{})", page + 1, page_count)`. -/
def suffix_chars (page pc : Nat) : List Char :=
  [' ', '(']
    ++ (Nat.repr (page + 1)).toList ++ ['/'] ++ (Nat.repr pc).toList ++ [')']

/-- `WriteScroller::make_title_buffer` (src/lib.rs lines 364-386).
`title_buffer.push_str(self.title)` is `ArrayString::push_str`, which
panics when the title does not fit in the 16-character buffer: `none`
models that panic.  When `page_count > 1` and the title leaves room for
`len_needed` characters, the suffix is appended through
`mk_prompt_write`, which truncates silently at capacity. -/
def make_title_buffer (title : List Char) (page pc : Nat) : Option (List Char) :=
  if title.length ≤ 16 then
    if 1 < pc ∧ title.length ≤ 16 - len_needed pc then
      (writeAll 16 ⟨0, title, 0⟩ [suffix_chars page pc]).map (·.buffer)
    else
      some title
  else
    none

/-- The row-one label chosen by the draw closures (src/lib.rs lines
176-183 and 258-265): the title buffer when the page index is shown,
the raw title verbatim otherwise. -/
def title_label (show_index : Bool) (title : List Char) (page pc : Nat) :
    Option (List Char) :=
  if show_index then make_title_buffer title page pc else some title

lemma repr_len_le1 : ∀ n < 10, (Nat.repr n).toList.length ≤ 1 := by decide

set_option maxRecDepth 4000 in
lemma repr_len_le2 : ∀ n < 100, (Nat.repr n).toList.length ≤ 2 := by decide

set_option maxRecDepth 40000 in
lemma repr_len_le3 : ∀ n < 1000, (Nat.repr n).toList.length ≤ 3 := by decide

/-- For pages drawn by the scroller (`page + 1 ≤ page_count ≤ 999`) the
rendered suffix fits in the reserved width. -/
lemma suffix_len_le (page pc : Nat) (hpage : page + 1 ≤ pc) (hpc : pc < 1000) :
    (suffix_chars page pc).length ≤ len_needed pc := by
  rw [suffix_chars, len_needed]
  simp only [List.length_append, List.length_cons, List.length_nil]
  by_cases h10 : pc < 10
  · have ha := repr_len_le1 (page + 1) (by omega)
    have hb := repr_len_le1 pc h10
    rw [if_pos h10]
    omega
  · rw [if_neg h10]
    by_cases h100 : pc < 100
    · have ha := repr_len_le2 (page + 1) (by omega)
      have hb := repr_len_le2 pc h100
      rw [if_pos h100]
      omega
    · have ha := repr_len_le3 (page + 1) (by omega)
      have hb := repr_len_le3 pc hpc
      rw [if_neg h100]
      omega

/-- Counterexample to claim C8: at `page_count = 1000` the reserved width
(10) undercounts the actual suffix `" (100/1000)"` (11 characters), so
for the fitting 6-character title neither promised outcome occurs: the
buffer holds the title plus a *truncated* suffix, with the closing
parenthesis cut off. -/
theorem c8_title_suffix_counterexample :
    make_title_buffer ("abcdef".toList) 99 1000
        ≠ some ("abcdef".toList ++ suffix_chars 99 1000)
    ∧ make_title_buffer ("abcdef".toList) 99 1000 ≠ some ("abcdef".toList)
    ∧ make_title_buffer ("abcdef".toList) 99 1000
        = some ("abcdef (100/1000".toList) := by decide

/-- Claim C8, amended: for a title that fits the 16-character buffer
(longer titles panic, see C9), `page_count > 1` and a drawable page
(`page + 1 ≤ page_count`), the buffer holds the title followed by the
suffix `" (page+1/page_count)"` truncated to the remaining capacity iff
`title.length ≤ 16 - len_needed`, and the bare title otherwise; whenever
`page_count ≤ 999` the suffix fits in full, so the original claim holds
there. -/
theorem c8_title_suffix_amended (title : List Char) (page pc : Nat)
    (hlen : title.length ≤ 16) (hpc : 1 < pc) (hpage : page + 1 ≤ pc) :
    (title.length ≤ 16 - len_needed pc →
        make_title_buffer title page pc
          = some (title ++ (suffix_chars page pc).take (16 - title.length)))
    ∧ (¬ title.length ≤ 16 - len_needed pc →
        make_title_buffer title page pc = some title)
    ∧ (pc < 1000 → title.length ≤ 16 - len_needed pc →
        make_title_buffer title page pc
          = some (title ++ suffix_chars page pc)) := by
  have hfit : ∀ hf : title.length ≤ 16 - len_needed pc,
      make_title_buffer title page pc
        = some (title ++ (suffix_chars page pc).take (16 - title.length)) := by
    intro hf
    rw [make_title_buffer, if_pos hlen, if_pos ⟨hpc, hf⟩,
      write_suffix _ _ hlen]
    rfl
  refine ⟨hfit, ?_, ?_⟩
  · intro hnf
    rw [make_title_buffer, if_pos hlen, if_neg (fun hand => hnf hand.2)]
  · intro hsmall hf
    rw [hfit hf]
    have hd : len_needed pc ≤ 10 := by
      rw [len_needed]
      by_cases h10 : pc < 10
      · rw [if_pos h10]
        omega
      · rw [if_neg h10]
        by_cases h100 : pc < 100
        · rw [if_pos h100]
          omega
        · rw [if_neg h100]
    have hs := suffix_len_le page pc hpage hsmall
    rw [List.take_of_length_le (by omega)]

/-- Witness for the amended C8: the spec's own examples — title `"TX"`
on page 1 of 3 renders `"TX (1/3)"`, and a 14-character title with
`page_count = 100` drops the suffix. -/
theorem c8_title_suffix_amended_witness :
    make_title_buffer ("TX".toList) 0 3 = some ("TX (1/3)".toList)
    ∧ make_title_buffer ("abcdefghijklmn".toList) 1 100
      = some ("abcdefghijklmn".toList) := by
  constructor
  · have h := (c8_title_suffix_amended ("TX".toList) 0 3 (by decide)
      (by decide) (by decide)).2.2 (by decide) (by decide)
    rw [h]
    decide
  · exact (c8_title_suffix_amended ("abcdefghijklmn".toList) 1 100 (by decide)
      (by decide) (by decide)).2.1 (by decide)

/-- Counterexample to claim C9: a 17-character title is not shown
truncated to 16 characters.  Without index display it is passed through
verbatim; with index display (here `page_count = 1`) the
`ArrayString::push_str` call panics. -/
theorem c9_long_title_counterexample :
    title_label false ("abcdefghijklmnopq".toList) 0 1
        ≠ some (("abcdefghijklmnopq".toList).take 16)
    ∧ title_label true ("abcdefghijklmnopq".toList) 0 1
        ≠ some (("abcdefghijklmnopq".toList).take 16)
    ∧ title_label false ("abcdefghijklmnopq".toList) 0 1
        = some ("abcdefghijklmnopq".toList)
    ∧ title_label true ("abcdefghijklmnopq".toList) 0 1 = none := by decide

/-- Claim C9, amended: a title longer than the 16-character buffer is
shown verbatim (not truncated) when index display is not requested, and
makes `make_title_buffer` panic when it is requested — for any page and
page count, including `page_count = 1`. -/
theorem c9_long_title_amended (title : List Char) (page pc : Nat)
    (hlen : 16 < title.length) :
    title_label false title page pc = some title
    ∧ title_label true title page pc = none := by
  refine ⟨rfl, ?_⟩
  show make_title_buffer title page pc = none
  rw [make_title_buffer, if_neg (by omega : ¬ title.length ≤ 16)]

/-- Witness for the amended C9 on a concrete 17-character title. -/
theorem c9_long_title_amended_witness :
    title_label false ("abcdefghijklmnopq".toList) 2 5
      = some ("abcdefghijklmnopq".toList)
    ∧ title_label true ("abcdefghijklmnopq".toList) 2 5 = none :=
  c9_long_title_amended ("abcdefghijklmnopq".toList) 2 5 (by decide)

/-- A UTF-8 continuation byte (`0b10xxxxxx`), as in Rust's
`str::is_char_boundary`. -/
def is_cont_byte (b : Nat) : Bool := decide (128 ≤ b ∧ b < 192)

/-- Rust's `str::is_char_boundary` over a byte string: index 0 and the
one-past-the-end index are boundaries, an interior index is one iff the
byte there is not a continuation byte.  Byte-index slicing `&s[a..b]`
panics when `a` or `b` is not a boundary. -/
def is_char_boundary (s : List Nat) (i : Nat) : Bool :=
  if i = 0 then true
  else
    match s[i]? with
    | some b => !(is_cont_byte b)
    | none => decide (i = s.length)

/-- The sink state at byte granularity: `usize` offsets and totals, a byte
buffer.  This is the faithful unit of `write_str`: `s.len()` and the
slice indices in the source are byte counts. -/
structure PromptWriteBytes (N : Nat) where
  offset : Nat
  buffer : List Nat
  total : Nat
deriving DecidableEq

/-- `PromptWrite::write_str` at byte granularity (src/lib.rs lines 30-47).
The outer `Option` models the possible panic of the byte-indexed slice
`&s[offset_in_s .. min(s.len(), offset_in_s + remaining_capacity)]`
(`none` = panic on a non-boundary cut); the inner `Except` is the
function's `core::fmt::Result`. -/
def write_str_bytes (N : Nat) (st : PromptWriteBytes N) (s : List Nat) :
    Option (Except Unit (PromptWriteBytes N)) :=
  let total := st.total + s.length
  let offset_in_s := min st.offset s.length
  let offset := st.offset - offset_in_s
  if 0 < offset then
    some (.ok ⟨offset, st.buffer, total⟩)
  else
    let b := min s.length (offset_in_s + (N - st.buffer.length))
    if is_char_boundary s offset_in_s && is_char_boundary s b then
      let slice := (s.drop offset_in_s).take (b - offset_in_s)
      if st.buffer.length + slice.length ≤ N then
        some (.ok ⟨offset, st.buffer ++ slice, total⟩)
      else
        some (.error ())
    else
      none

/-- Claim C10: `write_str` measures and slices by bytes.  Whenever the two
byte cut points (the consumed skip prefix and the capacity cut) fall on
UTF-8 character boundaries — as they always do for ASCII content — the
call does not panic and returns `Ok`, even when the buffer is already
full; and a cut point strictly inside a multi-byte character (here the
capacity cut at byte 1 of the two-byte character `é` = `[195, 169]`)
makes the slicing operation panic. -/
theorem c10_byte_boundaries :
    (∀ (N : Nat) (st : PromptWriteBytes N) (s : List Nat),
        st.buffer.length ≤ N →
        is_char_boundary s (min st.offset s.length) = true →
        is_char_boundary s
          (min s.length (min st.offset s.length + (N - st.buffer.length)))
          = true →
        ∃ st2, write_str_bytes N st s = some (.ok st2))
    ∧ write_str_bytes 1 ⟨0, [], 0⟩ [195, 169] = none := by
  constructor
  · intro N st s hbuf hba hbb
    by_cases h : 0 < st.offset - min st.offset s.length
    · exact ⟨_, by simp only [write_str_bytes]; rw [if_pos h]⟩
    · have hb2 : (is_char_boundary s (min st.offset s.length)
          && is_char_boundary s
            (min s.length (min st.offset s.length + (N - st.buffer.length))))
          = true := by
        rw [hba, hbb]
        rfl
      have hslice := List.length_take_le
        (min s.length (min st.offset s.length + (N - st.buffer.length))
          - min st.offset s.length)
        (s.drop (min st.offset s.length))
      exact ⟨_, by
        simp only [write_str_bytes]
        rw [if_neg h, if_pos hb2, if_pos (by omega)]⟩
  · rfl

/-- Witness for C10 on all-ASCII input `"hij"` with capacity 2: both cut
points are boundaries, the call returns `Ok`, the buffer fills to
capacity and the third byte is dropped. -/
theorem c10_byte_boundaries_witness :
    (∃ st2, write_str_bytes 2 ⟨0, [], 0⟩ [104, 105, 106] = some (.ok st2))
    ∧ write_str_bytes 2 ⟨0, [], 0⟩ [104, 105, 106]
      = some (.ok ⟨0, [104, 105], 3⟩) :=
  ⟨c10_byte_boundaries.1 2 ⟨0, [], 0⟩ [104, 105, 106] (by decide) (by decide)
    (by decide), rfl⟩
